import Mathlib

/-!
Shallow embedding of `src/StarField/sketch/CosmicSphere.ts` (a p5.js sketch).

JavaScript numbers are modelled as real numbers. The p5 drawing calls
(`circle`, `line`, together with the fill / stroke / blend-mode state in
effect when they fire) are modelled by recording the primitive each call
would emit, so one render call denotes the list of primitives it draws.
The ambient random source (`randomPointOnCircleEdge` draws a uniformly
random angle internally) is made explicit: a render call receives a stream
`rnd : ℕ → ℝ` of sampled angles, two per loop iteration.
-/

noncomputable section

/-- A 2D vector, modelling `p5.Vector` (the sketch never uses `z`). -/
structure Vec2 where
  x : ℝ
  y : ℝ

/-- `p5.Vector.add`: componentwise sum.  In p5 this MUTATES the receiver and
returns it; call sites below model the mutation by rebinding the receiver's
name to the result. -/
def Vec2.add (u v : Vec2) : Vec2 := ⟨u.x + v.x, u.y + v.y⟩

/-- `p5.Vector.div`: componentwise division by a scalar (also mutating in p5). -/
def Vec2.div (u : Vec2) (s : ℝ) : Vec2 := ⟨u.x / s, u.y / s⟩

/-- `p5.Vector.dist`: Euclidean distance between two vectors. -/
def Vec2.dist (u v : Vec2) : ℝ := Real.sqrt ((u.x - v.x) ^ 2 + (u.y - v.y) ^ 2)

/-- A 4-component color value (`Vec4` in the source, fields `a b c d`). -/
structure Vec4 where
  a : ℝ
  b : ℝ
  c : ℝ
  d : ℝ

/-- p5 `constrain(n, low, high) = max(min(n, high), low)`. -/
def constrain (n low high : ℝ) : ℝ := max (min n high) low

/-- p5 `map(n, start1, stop1, start2, stop2, withinBounds)`:
`newval = (n - start1) / (stop1 - start1) * (stop2 - start2) + start2`,
returned as is when `withinBounds` is absent/false, otherwise constrained to
the target range (ordered by which of `start2`, `stop2` is smaller). -/
def p5map (n start1 stop1 start2 stop2 : ℝ) (withinBounds : Bool) : ℝ :=
  let newval := (n - start1) / (stop1 - start1) * (stop2 - start2) + start2
  if withinBounds then
    if start2 < stop2 then constrain newval start2 stop2
    else constrain newval stop2 start2
  else newval

/-- Modelled from the spec: the helper `randomPointOnCircleEdge(radius, x, y)`
called at lines 21–22 of `CosmicSphere.ts` is not part of the provided source.
Per the spec it returns a uniformly random point on the circle of radius
`radius` centered at `(x, y)`; the internal random draw is made explicit here
as the sampled angle `theta`. -/
def randomPointOnCircleEdge (radius x y theta : ℝ) : Vec2 :=
  ⟨x + radius * Real.cos theta, y + radius * Real.sin theta⟩

/-- The two blend modes the sketch uses: `"source-over"` and `ADD`. -/
inductive BlendMode
  | sourceOver
  | add

/-- A drawing primitive recorded by a render call: a filled circle
`circle(x, y, diam)` with the active fill color and blend mode, or a stroked
line `line(x1, y1, x2, y2)` with the active stroke color, stroke weight and
blend mode. -/
inductive Prim
  | circle (x y diam : ℝ) (fillCol : Vec4) (mode : BlendMode)
  | line (x1 y1 x2 y2 : ℝ) (strokeCol : Vec4) (weight : ℝ) (mode : BlendMode)

/-- First x-coordinate of a primitive (circle center x, or line start x). -/
def Prim.x1 : Prim → ℝ
  | .circle x _ _ _ _ => x
  | .line x1 _ _ _ _ _ _ => x1

/-- The color a primitive was drawn with (fill for circles, stroke for lines). -/
def Prim.colorOf : Prim → Vec4
  | .circle _ _ _ c _ => c
  | .line _ _ _ _ c _ _ => c

/-- Whether the primitive is a line. -/
def Prim.isLine : Prim → Bool
  | .circle _ _ _ _ _ => false
  | .line _ _ _ _ _ _ _ => true

/-- Whether the primitive is a circle. -/
def Prim.isCircle : Prim → Bool
  | .circle _ _ _ _ _ => true
  | .line _ _ _ _ _ _ _ => false

/-- The `CosmicSphere` class data: radius `size`, center `pos`, base color
`col`, chord count `iterations` (a JS number; the loop `for (i = 0; i <
iterations; i++)` runs `iterations.toNat` times, so a negative count draws no
chords). -/
structure CosmicSphere where
  size : ℝ
  pos : Vec2
  col : Vec4
  iterations : ℤ

/-- The constructor (lines 7–12): plain field assignment, no validation. -/
def CosmicSphere.construct (size : ℝ) (pos : Vec2) (col : Vec4)
    (iterations : ℤ) : CosmicSphere :=
  { size := size, pos := pos, col := col, iterations := iterations }

/-- Line 21/22: `randomPointOnCircleEdge(this.size, this.pos.x * 2, this.pos.y * 2)`
at sampled angle `theta`. -/
def edgePoint (s : CosmicSphere) (theta : ℝ) : Vec2 :=
  randomPointOnCircleEdge s.size (s.pos.x * 2) (s.pos.y * 2) theta

/-- Line 23: `lenLine = p1.dist(p2)` for the chord sampled at angles `θ1`, `θ2`.
This is evaluated BEFORE `p1` is mutated, so it uses the original endpoints. -/
def lenLineOf (s : CosmicSphere) (θ1 θ2 : ℝ) : ℝ :=
  (edgePoint s θ1).dist (edgePoint s θ2)

/-- Line 24: `aLineLen = map(lenLine, 0, this.size * 2, 1, 0.3, true)`
(the `true` makes p5 constrain the result to the target range). -/
def aLineLenOf (size lenLine : ℝ) : ℝ :=
  p5map lenLine 0 (size * 2) 1 0.3 true

/-- Line 25: `midPoint = p1.add(p2).div(2)`.  Because `add` and `div` mutate
their receiver, after this line the variable `p1` denotes this same midpoint
value. -/
def midPointOf (s : CosmicSphere) (θ1 θ2 : ℝ) : Vec2 :=
  ((edgePoint s θ1).add (edgePoint s θ2)).div 2

/-- Line 26: `dLight = midPoint.dist(lightSource)`. -/
def dLightOf (s : CosmicSphere) (light : Vec2) (θ1 θ2 : ℝ) : ℝ :=
  (midPointOf s θ1 θ2).dist light

/-- Line 27: `aLight = map(dLight, 600, 1200, 0, 1.0)` — note: NO sixth
argument, so p5 does not constrain the result. -/
def aLightOf (dLight : ℝ) : ℝ :=
  p5map dLight 600 1200 0 1 false

/-- Line 28: `alpha_1 = aLight * aLineLen`. -/
def alpha1Of (s : CosmicSphere) (light : Vec2) (θ1 θ2 : ℝ) : ℝ :=
  aLightOf (dLightOf s light θ1 θ2) * aLineLenOf s.size (lenLineOf s θ1 θ2)

/-- Lines 29–34: the stroke color
`color(col.a, col.b - alpha_1 * col.b, col.c, alpha_1 * col.d)`. -/
def baseColorOf (s : CosmicSphere) (light : Vec2) (θ1 θ2 : ℝ) : Vec4 :=
  ⟨s.col.a,
   s.col.b - alpha1Of s light θ1 θ2 * s.col.b,
   s.col.c,
   alpha1Of s light θ1 θ2 * s.col.d⟩

/-- Lines 21–37, one loop iteration: the line primitive emitted by
`line(p1.x, p1.y, p2.x, p2.y)` with the stroke color of lines 29–35, stroke
weight 1.0 (line 36) and the ADD blend mode set at line 18.  At the `line`
call the variable `p1` holds the chord midpoint — `p1.add(p2)` at line 25
mutated `p1` in place and `.div(2)` divided it in place — so the first
endpoint is `midPointOf`, not the sampled edge point. -/
def drawChord (s : CosmicSphere) (light : Vec2) (θ1 θ2 : ℝ) : Prim :=
  Prim.line (midPointOf s θ1 θ2).x (midPointOf s θ1 θ2).y
    (edgePoint s θ2).x (edgePoint s θ2).y
    (baseColorOf s light θ1 θ2) 1 BlendMode.add

/-- Lines 14–38, `drawSphere()`: under source-over blending, a circle filled
with `color(0, 0, 0, 255)` at `(pos.x, pos.y)` with diameter `size * 2`
(lines 15–17); then, under ADD blending with fill disabled (lines 18–19), one
chord line per loop iteration (lines 20–37).  Iteration `i` consumes the
sampled angles `rnd (2*i)` and `rnd (2*i+1)`. -/
def drawSphere (s : CosmicSphere) (light : Vec2) (rnd : ℕ → ℝ) : List Prim :=
  Prim.circle s.pos.x s.pos.y (s.size * 2) ⟨0, 0, 0, 255⟩ BlendMode.sourceOver ::
    (List.range s.iterations.toNat).map
      (fun i => drawChord s light (rnd (2 * i)) (rnd (2 * i + 1)))

/-- The mutable environment a render call could in principle write to: the
sphere's own fields (`this.size`, `this.pos`, `this.col`, `this.iterations`)
and the ambient `lightSource`. -/
structure RenderEnv where
  sphere : CosmicSphere
  light : Vec2

/-- One loop iteration as a state transformer on `RenderEnv`: the body of
lines 21–37 only reads `this.*` and `lightSource` (its sole assignments are
to the loop-local `p1`, `p2`, …), so the environment passes through. -/
def drawChordS (env : RenderEnv) (θ1 θ2 : ℝ) : RenderEnv × Prim :=
  (env, drawChord env.sphere env.light θ1 θ2)

/-- The chord loop, threading the environment through the iterations. -/
def drawLoopS : RenderEnv → List (ℝ × ℝ) → RenderEnv × List Prim
  | env, [] => (env, [])
  | env, a :: rest =>
      let step := drawChordS env a.1 a.2
      let tail := drawLoopS step.1 rest
      (tail.1, step.2 :: tail.2)

/-- `drawSphere` as a state transformer: it returns the environment as the
code leaves it together with the primitives drawn. -/
def drawSphereS (env : RenderEnv) (rnd : ℕ → ℝ) : RenderEnv × List Prim :=
  let base := Prim.circle env.sphere.pos.x env.sphere.pos.y
    (env.sphere.size * 2) ⟨0, 0, 0, 255⟩ BlendMode.sourceOver
  let run := drawLoopS env
    ((List.range env.sphere.iterations.toNat).map
      (fun i => (rnd (2 * i), rnd (2 * i + 1))))
  (run.1, base :: run.2)

/-- Helper: a `Vec2` distance evaluates to `r ≥ 0` whenever the squared
distance is `r ^ 2`. -/
theorem Vec2.dist_eq_of_sq (u v : Vec2) (r : ℝ) (hr : 0 ≤ r)
    (h : (u.x - v.x) ^ 2 + (u.y - v.y) ^ 2 = r ^ 2) : u.dist v = r := by
  rw [Vec2.dist, h, Real.sqrt_sq hr]

/-- Helper: the light map is the plain (unclamped) linear expression. -/
theorem aLightOf_eq (d : ℝ) : aLightOf d = (d - 600) / 600 := by
  unfold aLightOf p5map
  norm_num

/-- Helper: the length map is the linear expression constrained to `[0.3, 1]`
(p5 orders the constraint bounds because `start2 = 1 > stop2 = 0.3`). -/
theorem aLineLenOf_eq (size lenLine : ℝ) :
    aLineLenOf size lenLine =
      max (min (lenLine / (size * 2) * (0.3 - 1) + 1) 1) 0.3 := by
  unfold aLineLenOf p5map constrain
  norm_num

/-- Helper: the length alpha always lies in `[0.3, 1]`. -/
theorem aLineLenOf_mem (size lenLine : ℝ) :
    0.3 ≤ aLineLenOf size lenLine ∧ aLineLenOf size lenLine ≤ 1 := by
  rw [aLineLenOf_eq]
  exact ⟨le_max_right _ _, max_le (min_le_right _ _) (by norm_num)⟩

/-- Consistency: the state-transformer renderer draws the same primitives as
the functional one. -/
theorem drawSphereS_snd (env : RenderEnv) (rnd : ℕ → ℝ) :
    (drawSphereS env rnd).2 = drawSphere env.sphere env.light rnd := by
  have h : ∀ (l : List (ℝ × ℝ)) (e : RenderEnv),
      (drawLoopS e l).2 = l.map (fun a => drawChord e.sphere e.light a.1 a.2) := by
    intro l
    induction l with
    | nil => intro e; rfl
    | cons a t ih => intro e; simp [drawLoopS, drawChordS, ih]
  simp [drawSphereS, drawSphere, h, List.map_map, Function.comp]

/-- C7 counterexample: constructing a sphere with radius `-1` and chord count
`-1` does not fail — it produces a sphere value storing exactly those fields,
contrary to the claim that such a construction fails with an
invalid-configuration error. -/
theorem construct_no_validation_cex :
    CosmicSphere.construct (-1) ⟨0, 0⟩ ⟨0, 0, 0, 0⟩ (-1) =
      { size := -1, pos := ⟨0, 0⟩, col := ⟨0, 0, 0, 0⟩, iterations := -1 } := rfl

/-- C7 (amended): construction never fails — the constructor stores the given
radius, center, color and chord count verbatim, with no validation, so
`radius ≤ 0` and `chordCount < 0` also produce sphere values. -/
theorem construct_stores_fields (size : ℝ) (pos : Vec2) (col : Vec4)
    (iterations : ℤ) :
    (CosmicSphere.construct size pos col iterations).size = size
    ∧ (CosmicSphere.construct size pos col iterations).pos = pos
    ∧ (CosmicSphere.construct size pos col iterations).col = col
    ∧ (CosmicSphere.construct size pos col iterations).iterations = iterations :=
  ⟨rfl, rfl, rfl, rfl⟩

/-- C9: rendering is deterministic — two render calls on the same sphere
configuration, the same light position and the same injected random-angle
source produce the same sequence of drawn primitives (same coordinates,
stroke colors, stroke weights and blend modes). -/
theorem drawSphere_deterministic (s1 s2 : CosmicSphere) (l1 l2 : Vec2)
    (r1 r2 : ℕ → ℝ) (hs : s1 = s2) (hl : l1 = l2) (hr : ∀ i, r1 i = r2 i) :
    drawSphere s1 l1 r1 = drawSphere s2 l2 r2 := by
  subst hs
  subst hl
  rw [funext hr]

/-- C9 witness: the determinism theorem applied at a concrete sphere, light
and angle stream. -/
theorem drawSphere_deterministic_witness :
    drawSphere ⟨5, ⟨0, 0⟩, ⟨255, 0, 255, 200⟩, 3⟩ ⟨0, 0⟩ (fun _ => 0) =
      drawSphere ⟨5, ⟨0, 0⟩, ⟨255, 0, 255, 200⟩, 3⟩ ⟨0, 0⟩ (fun _ => 0) :=
  drawSphere_deterministic _ _ _ _ _ _ rfl rfl (fun _ => rfl)

/-- C10: a render call mutates no persistent state — after `drawSphere`
returns, the sphere's fields (`size`, `pos`, `col`, `iterations`) and the
light-source position hold exactly the values they held before the call. -/
theorem drawSphere_no_persistent_mutation (env : RenderEnv) (rnd : ℕ → ℝ) :
    (drawSphereS env rnd).1.sphere.size = env.sphere.size
    ∧ (drawSphereS env rnd).1.sphere.pos = env.sphere.pos
    ∧ (drawSphereS env rnd).1.sphere.col = env.sphere.col
    ∧ (drawSphereS env rnd).1.sphere.iterations = env.sphere.iterations
    ∧ (drawSphereS env rnd).1.light = env.light := by
  have h : ∀ (l : List (ℝ × ℝ)) (e : RenderEnv), (drawLoopS e l).1 = e := by
    intro l
    induction l with
    | nil => intro e; rfl
    | cons a t ih => intro e; simp [drawLoopS, drawChordS, ih]
  simp [drawSphereS, h]

/-- C5: the stroke color of every chord equals
`(col.a, col.b * (1 - alpha_1), col.c, col.d * alpha_1)` — channels 0 and 2
are the base color's unchanged, channel 1 is scaled by `1 - alpha_1` and the
alpha channel is scaled by `alpha_1` (the combined alpha). -/
theorem chord_stroke_color_formula (s : CosmicSphere) (light : Vec2)
    (θ1 θ2 : ℝ) :
    (drawChord s light θ1 θ2).colorOf =
      ⟨s.col.a, s.col.b * (1 - alpha1Of s light θ1 θ2), s.col.c,
        s.col.d * alpha1Of s light θ1 θ2⟩ := by
  simp only [drawChord, Prim.colorOf, baseColorOf, Vec4.mk.injEq, true_and,
    and_true]
  exact ⟨by ring, by ring⟩

/-- C2 (amended): `aLight` is the UNCLAMPED linear map of the
midpoint-to-light distance, `(dLight - 600) / 600`: it is 0 at distance 600,
1 at distance 1200, interpolates linearly on `[600, 1200]`, but distances
below 600 yield negative values (not 0) and distances above 1200 yield values
greater than 1 (not 1). -/
theorem aLight_linear_unclamped (d : ℝ) :
    aLightOf d = (d - 600) / 600
    ∧ (600 ≤ d → d ≤ 1200 → 0 ≤ aLightOf d ∧ aLightOf d ≤ 1)
    ∧ (d < 600 → aLightOf d < 0)
    ∧ (1200 < d → 1 < aLightOf d) := by
  refine ⟨aLightOf_eq d, fun h1 h2 => ⟨?_, ?_⟩, fun h => ?_, fun h => ?_⟩ <;>
    rw [aLightOf_eq]
  · exact div_nonneg (by linarith) (by norm_num)
  · rw [div_le_one (by norm_num)]
    linarith
  · exact div_neg_of_neg_of_pos (by linarith) (by norm_num)
  · rw [lt_div_iff₀ (by norm_num)]
    linarith

/-- C2 witness: `aLight` evaluated below and above the source range leaves
`[0, 1]`. -/
theorem aLight_linear_unclamped_witness :
    aLightOf 0 < 0 ∧ 1 < aLightOf 1800 :=
  ⟨(aLight_linear_unclamped 0).2.2.1 (by norm_num),
   (aLight_linear_unclamped 1800).2.2.2 (by norm_num)⟩

/-- C2 counterexample: sphere of radius 5 at the origin, light at the origin,
sampled angles 0 and π.  The chord midpoint is `(0, 0)`, the midpoint-to-light
distance is `0 ≤ 600`, yet `aLight = -1`, not 0 as the claim requires. -/
theorem aLight_claim_cex :
    dLightOf ⟨5, ⟨0, 0⟩, ⟨255, 0, 255, 200⟩, 1⟩ ⟨0, 0⟩ 0 Real.pi = 0
    ∧ aLightOf (dLightOf ⟨5, ⟨0, 0⟩, ⟨255, 0, 255, 200⟩, 1⟩ ⟨0, 0⟩ 0 Real.pi)
        = -1 := by
  have h : dLightOf ⟨5, ⟨0, 0⟩, ⟨255, 0, 255, 200⟩, 1⟩ ⟨0, 0⟩ 0 Real.pi = 0 := by
    unfold dLightOf
    apply Vec2.dist_eq_of_sq _ _ _ le_rfl
    norm_num [midPointOf, edgePoint, randomPointOnCircleEdge, Vec2.add,
      Vec2.div, Real.cos_pi, Real.sin_pi, Real.cos_zero, Real.sin_zero]
  refine ⟨h, ?_⟩
  rw [h, aLightOf_eq]
  norm_num

/-- C6: `aLineLen` is the clamped linear map of the chord length from the
source range `[0, 2 * size]` to the target range `[1, 0.3]`: it always lies in
`[0.3, 1]`, equals the linear interpolant on in-range lengths, is 1 at length
0 (and below), and 0.3 at length `2 * size` (and above). -/
theorem aLineLen_clamped_linear (size lenLine : ℝ) (h : 0 < size) :
    (0.3 ≤ aLineLenOf size lenLine ∧ aLineLenOf size lenLine ≤ 1)
    ∧ aLineLenOf size 0 = 1
    ∧ aLineLenOf size (2 * size) = 0.3
    ∧ (0 ≤ lenLine → lenLine ≤ 2 * size →
        aLineLenOf size lenLine = 1 + lenLine / (size * 2) * (0.3 - 1))
    ∧ (lenLine ≤ 0 → aLineLenOf size lenLine = 1)
    ∧ (2 * size ≤ lenLine → aLineLenOf size lenLine = 0.3) := by
  have hs2 : (0 : ℝ) < size * 2 := by linarith
  refine ⟨aLineLenOf_mem size lenLine, ?_, ?_, fun h0 h2 => ?_, fun hle => ?_,
    fun hge => ?_⟩
  · rw [aLineLenOf_eq]
    norm_num
  · rw [aLineLenOf_eq, mul_comm 2 size, div_self (ne_of_gt hs2)]
    norm_num
  · have ht0 : 0 ≤ lenLine / (size * 2) := div_nonneg h0 (le_of_lt hs2)
    have ht1 : lenLine / (size * 2) ≤ 1 := (div_le_one hs2).mpr (by linarith)
    rw [aLineLenOf_eq, min_eq_left (by nlinarith), max_eq_left (by nlinarith)]
    ring
  · have ht : lenLine / (size * 2) ≤ 0 :=
      div_nonpos_iff.mpr (Or.inr ⟨hle, le_of_lt hs2⟩)
    rw [aLineLenOf_eq, min_eq_right (by nlinarith), max_eq_left (by norm_num)]
  · have ht : 1 ≤ lenLine / (size * 2) :=
      (one_le_div hs2).mpr (by linarith)
    rw [aLineLenOf_eq, min_eq_left (by nlinarith), max_eq_right (by nlinarith)]

/-- C6 witness: at radius 5, a chord of length 10 (the diameter) gets alpha
0.3, a chord of length 4 gets the in-range linear value, and the bounds hold. -/
theorem aLineLen_clamped_linear_witness :
    (0.3 ≤ aLineLenOf 5 4 ∧ aLineLenOf 5 4 ≤ 1)
    ∧ aLineLenOf 5 0 = 1
    ∧ aLineLenOf 5 (2 * 5) = 0.3
    ∧ aLineLenOf 5 4 = 1 + 4 / (5 * 2) * (0.3 - 1) :=
  ⟨(aLineLen_clamped_linear 5 4 (by norm_num)).1,
   (aLineLen_clamped_linear 5 4 (by norm_num)).2.1,
   (aLineLen_clamped_linear 5 4 (by norm_num)).2.2.1,
   (aLineLen_clamped_linear 5 4 (by norm_num)).2.2.2.1 (by norm_num) (by norm_num)⟩

/-- Demonstration value: radius 5, center at the origin, both sampled angles 0
give the degenerate chord at `(5, 0)`; its length is 0. -/
theorem lenLine_demo :
    lenLineOf ⟨5, ⟨0, 0⟩, ⟨255, 0, 255, 200⟩, 1⟩ 0 0 = 0 := by
  unfold lenLineOf
  apply Vec2.dist_eq_of_sq _ _ _ le_rfl
  norm_num

/-- Demonstration value: with that degenerate chord's midpoint `(5, 0)` and
the light at `(605, 0)`, the midpoint-to-light distance is exactly 600. -/
theorem dLight_demo_600 :
    dLightOf ⟨5, ⟨0, 0⟩, ⟨255, 0, 255, 200⟩, 1⟩ ⟨605, 0⟩ 0 0 = 600 := by
  unfold dLightOf
  apply Vec2.dist_eq_of_sq _ _ _ (by norm_num)
  norm_num [midPointOf, edgePoint, randomPointOnCircleEdge, Vec2.add, Vec2.div,
    Real.cos_zero, Real.sin_zero]

/-- Demonstration value: with the light at `(1805, 0)` instead, the
midpoint-to-light distance is 1800, beyond the 1200 end of the map range. -/
theorem dLight_demo_1800 :
    dLightOf ⟨5, ⟨0, 0⟩, ⟨255, 0, 255, 200⟩, 1⟩ ⟨1805, 0⟩ 0 0 = 1800 := by
  unfold dLightOf
  apply Vec2.dist_eq_of_sq _ _ _ (by norm_num)
  norm_num [midPointOf, edgePoint, randomPointOnCircleEdge, Vec2.add, Vec2.div,
    Real.cos_zero, Real.sin_zero]

/-- Helper: a chord of length 0 always gets length alpha 1. -/
theorem aLineLenOf_zero (size : ℝ) : aLineLenOf size 0 = 1 := by
  rw [aLineLenOf_eq]
  norm_num

/-- C3 counterexample: sphere of radius 5 at the origin with
`col = (255, 0, 255, 200)`, light at `(1805, 0)`, both sampled angles 0.  The
degenerate chord at `(5, 0)` has `aLineLen = 1` and `aLight = 2` (distance
1800, unclamped), so `alpha_1 = 2 ∉ [0, 1]` and the stroke alpha is
`400 > col.d = 200`. -/
theorem alpha1_out_of_range_cex :
    alpha1Of ⟨5, ⟨0, 0⟩, ⟨255, 0, 255, 200⟩, 1⟩ ⟨1805, 0⟩ 0 0 = 2
    ∧ (drawChord ⟨5, ⟨0, 0⟩, ⟨255, 0, 255, 200⟩, 1⟩ ⟨1805, 0⟩ 0 0).colorOf.d
        = 400 := by
  have ha : alpha1Of ⟨5, ⟨0, 0⟩, ⟨255, 0, 255, 200⟩, 1⟩ ⟨1805, 0⟩ 0 0 = 2 := by
    unfold alpha1Of
    rw [dLight_demo_1800, lenLine_demo, aLightOf_eq, aLineLenOf_zero]
    norm_num
  refine ⟨ha, ?_⟩
  show alpha1Of ⟨5, ⟨0, 0⟩, ⟨255, 0, 255, 200⟩, 1⟩ ⟨1805, 0⟩ 0 0 * 200 = 400
  rw [ha]
  norm_num

/-- C3 (amended): whenever the chord midpoint's distance to the light lies in
`[600, 1200]`, `alpha_1 = aLight * aLineLen` lies in `[0, 1]` and the stroke
alpha lies in `[0, col.d]` (for nonnegative `col.d`); outside that distance
range `alpha_1` can leave `[0, 1]` and the stroke alpha can exceed `col.d`. -/
theorem alpha1_bounds_of_dLight_mem (s : CosmicSphere) (light : Vec2)
    (θ1 θ2 : ℝ) (h1 : 600 ≤ dLightOf s light θ1 θ2)
    (h2 : dLightOf s light θ1 θ2 ≤ 1200) (hd : 0 ≤ s.col.d) :
    (0 ≤ alpha1Of s light θ1 θ2 ∧ alpha1Of s light θ1 θ2 ≤ 1)
    ∧ 0 ≤ (drawChord s light θ1 θ2).colorOf.d
    ∧ (drawChord s light θ1 θ2).colorOf.d ≤ s.col.d := by
  have hlen := aLineLenOf_mem s.size (lenLineOf s θ1 θ2)
  have hl0 : 0 ≤ aLightOf (dLightOf s light θ1 θ2) := by
    rw [aLightOf_eq]
    exact div_nonneg (by linarith) (by norm_num)
  have hl1 : aLightOf (dLightOf s light θ1 θ2) ≤ 1 := by
    rw [aLightOf_eq, div_le_one (by norm_num)]
    linarith
  have ha0 : 0 ≤ alpha1Of s light θ1 θ2 := by
    unfold alpha1Of
    exact mul_nonneg hl0 (le_trans (by norm_num) hlen.1)
  have ha1 : alpha1Of s light θ1 θ2 ≤ 1 := by
    unfold alpha1Of
    exact mul_le_one₀ hl1 (le_trans (by norm_num) hlen.1) hlen.2
  have hcd : (drawChord s light θ1 θ2).colorOf.d
      = alpha1Of s light θ1 θ2 * s.col.d := rfl
  refine ⟨⟨ha0, ha1⟩, ?_, ?_⟩
  · rw [hcd]
    exact mul_nonneg ha0 hd
  · rw [hcd]
    exact mul_le_of_le_one_left hd ha1

/-- C3 witness: the bounds theorem applied at the concrete chord whose
midpoint sits exactly 600 units from the light. -/
theorem alpha1_bounds_of_dLight_mem_witness :
    (0 ≤ alpha1Of ⟨5, ⟨0, 0⟩, ⟨255, 0, 255, 200⟩, 1⟩ ⟨605, 0⟩ 0 0
      ∧ alpha1Of ⟨5, ⟨0, 0⟩, ⟨255, 0, 255, 200⟩, 1⟩ ⟨605, 0⟩ 0 0 ≤ 1)
    ∧ 0 ≤ (drawChord ⟨5, ⟨0, 0⟩, ⟨255, 0, 255, 200⟩, 1⟩ ⟨605, 0⟩ 0 0).colorOf.d
    ∧ (drawChord ⟨5, ⟨0, 0⟩, ⟨255, 0, 255, 200⟩, 1⟩ ⟨605, 0⟩ 0 0).colorOf.d
        ≤ (200 : ℝ) :=
  alpha1_bounds_of_dLight_mem _ _ 0 0 (le_of_eq dLight_demo_600.symm)
    (by rw [dLight_demo_600]; norm_num) (show (0:ℝ) ≤ 200 by norm_num)

/-- C1: the claim fails on the code.  `p1.add(p2)` at line 25 mutates `p1` in
place and `.div(2)` divides it in place, so at the `line(...)` call on line 37
the variable `p1` holds the chord MIDPOINT, not the originally sampled point.
At the failing input — sphere of radius 5 at the origin, sampled angles 0 and
π, so p1 = (5, 0) and p2 = (-5, 0) — the drawn segment starts at x = 0 (the
midpoint), although the sampled p1 has x = 5. -/
theorem drawChord_first_endpoint_is_midpoint_cex :
    (drawChord ⟨5, ⟨0, 0⟩, ⟨255, 0, 255, 200⟩, 1⟩ ⟨0, 0⟩ 0 Real.pi).x1 = 0
    ∧ (edgePoint ⟨5, ⟨0, 0⟩, ⟨255, 0, 255, 200⟩, 1⟩ 0).x = 5 := by
  constructor
  · show (midPointOf ⟨5, ⟨0, 0⟩, ⟨255, 0, 255, 200⟩, 1⟩ 0 Real.pi).x = 0
    norm_num [midPointOf, edgePoint, randomPointOnCircleEdge, Vec2.add,
      Vec2.div, Real.cos_zero, Real.cos_pi]
  · norm_num [edgePoint, randomPointOnCircleEdge, Real.cos_zero]

/-- C4: one render call draws exactly one filled base circle and exactly
`iterations` chord lines; with `iterations = 0` only the base circle is
drawn. -/
theorem drawSphere_base_and_chord_count (s : CosmicSphere) (light : Vec2)
    (rnd : ℕ → ℝ) (hr : 0 < s.size) (hc : 0 ≤ s.iterations) :
    (drawSphere s light rnd).length = 1 + s.iterations.toNat
    ∧ (drawSphere s light rnd).countP Prim.isCircle = 1
    ∧ (((drawSphere s light rnd).countP Prim.isLine : ℤ) = s.iterations)
    ∧ (s.iterations = 0 → drawSphere s light rnd =
        [Prim.circle s.pos.x s.pos.y (s.size * 2) ⟨0, 0, 0, 255⟩
          BlendMode.sourceOver]) := by
  have hline : ∀ p ∈ (List.range s.iterations.toNat).map
      (fun i => drawChord s light (rnd (2 * i)) (rnd (2 * i + 1))),
      Prim.isLine p = true := by
    intro p hp
    obtain ⟨i, _, rfl⟩ := List.mem_map.mp hp
    rfl
  refine ⟨?_, ?_, ?_, fun h0 => ?_⟩
  · simp only [drawSphere, List.length_cons, List.length_map, List.length_range]
    omega
  · unfold drawSphere
    rw [List.countP_cons_of_pos _ _ (by rfl),
      List.countP_eq_zero.mpr (by
        intro p hp
        obtain ⟨i, _, rfl⟩ := List.mem_map.mp hp
        simp [drawChord, Prim.isCircle])]
  · unfold drawSphere
    rw [List.countP_cons_of_neg _ _ (by simp [Prim.isLine]),
      List.countP_eq_length.mpr hline, List.length_map, List.length_range,
      Int.toNat_of_nonneg hc]
  · simp [drawSphere, h0]

/-- C4 witness: the counting theorem applied at a concrete sphere with two
chords. -/
theorem drawSphere_base_and_chord_count_witness :
    (drawSphere ⟨5, ⟨0, 0⟩, ⟨255, 0, 255, 200⟩, 2⟩ ⟨0, 0⟩ (fun _ => 0)).length
        = 1 + (2 : ℤ).toNat
    ∧ (drawSphere ⟨5, ⟨0, 0⟩, ⟨255, 0, 255, 200⟩, 2⟩ ⟨0, 0⟩
        (fun _ => 0)).countP Prim.isCircle = 1
    ∧ (((drawSphere ⟨5, ⟨0, 0⟩, ⟨255, 0, 255, 200⟩, 2⟩ ⟨0, 0⟩
        (fun _ => 0)).countP Prim.isLine : ℤ) = 2) :=
  ⟨(drawSphere_base_and_chord_count _ _ _ (show (0:ℝ) < 5 by norm_num)
      (show (0:ℤ) ≤ 2 by norm_num)).1,
   (drawSphere_base_and_chord_count _ _ _ (show (0:ℝ) < 5 by norm_num)
      (show (0:ℤ) ≤ 2 by norm_num)).2.1,
   (drawSphere_base_and_chord_count _ _ _ (show (0:ℝ) < 5 by norm_num)
      (show (0:ℤ) ≤ 2 by norm_num)).2.2.1⟩

/-- Helper: every sampled edge point lies at distance `size` from the DOUBLED
center `(pos.x * 2, pos.y * 2)` (for nonnegative radius). -/
theorem edgePoint_on_circle (s : CosmicSphere) (θ : ℝ) (h : 0 ≤ s.size) :
    (edgePoint s θ).dist ⟨s.pos.x * 2, s.pos.y * 2⟩ = s.size := by
  apply Vec2.dist_eq_of_sq _ _ _ h
  simp only [edgePoint, randomPointOnCircleEdge]
  linear_combination (s.size ^ 2) * Real.cos_sq_add_sin_sq θ

/-- C8: the base circle is drawn first, centered at the STORED center
`(pos.x, pos.y)` with diameter `size * 2`, while every sampled chord endpoint
lies on the circle of radius `size` centered at the DOUBLED coordinates
`(pos.x * 2, pos.y * 2)`. -/
theorem base_circle_and_sampling_center (s : CosmicSphere) (light : Vec2)
    (rnd : ℕ → ℝ) (θ : ℝ) (h : 0 ≤ s.size) :
    (drawSphere s light rnd).head? =
      some (Prim.circle s.pos.x s.pos.y (s.size * 2) ⟨0, 0, 0, 255⟩
        BlendMode.sourceOver)
    ∧ (edgePoint s θ).dist ⟨s.pos.x * 2, s.pos.y * 2⟩ = s.size :=
  ⟨rfl, edgePoint_on_circle s θ h⟩

/-- C8 witness: the theorem applied at a concrete sphere with a center away
from the origin, making the doubling visible. -/
theorem base_circle_and_sampling_center_witness :
    (drawSphere ⟨5, ⟨1, 2⟩, ⟨255, 0, 255, 200⟩, 1⟩ ⟨0, 0⟩ (fun _ => 0)).head? =
      some (Prim.circle 1 2 (5 * 2) ⟨0, 0, 0, 255⟩ BlendMode.sourceOver)
    ∧ (edgePoint ⟨5, ⟨1, 2⟩, ⟨255, 0, 255, 200⟩, 1⟩ 0).dist ⟨1 * 2, 2 * 2⟩ = 5 :=
  base_circle_and_sampling_center _ _ (fun _ => 0) 0 (show (0:ℝ) ≤ 5 by norm_num)
